/-
  Verification of the signal-gated paper-trading engine:
  Position Ledger (scripts/paper_trader.py), Risk Gate (scripts/risk_manager.py),
  Exit Evaluator (src/risk_manager.py) and spike Detector (src/arbitrage_detector.py).

  Money and prices are modelled as exact rationals; timestamps are rationals
  counting seconds (the code's datetime values), and a calendar day is the
  floor of the timestamp divided by 86400.  Python dicts are modelled as
  insertion-ordered association lists with in-place update, and the slippage
  drawn by `random.uniform` is an explicit input of each trade request.
-/

import Mathlib

/-! ## Position Ledger (scripts/paper_trader.py) -/

/-- Trade side, `"BUY"` / `"SELL"` strings in the source. -/
inductive Side where
  | BUY
  | SELL
deriving DecidableEq, Repr

/-- Position side, `"LONG"` / `"SHORT"` strings in the source. -/
inductive PosSide where
  | LONG
  | SHORT
deriving DecidableEq, Repr

/-- The `Position` dataclass of paper_trader.py, including the runtime-tracking
fields that default to 0. -/
structure Position where
  market_id : String
  outcome : String
  entry_price : ℚ
  shares : ℚ
  side : PosSide
  opened_at : ℚ
  trade_id : String
  current_price : ℚ := 0
  unrealized_pnl : ℚ := 0
  unrealized_pnl_percent : ℚ := 0
deriving DecidableEq, Repr

/-- The `TradeRecord` dataclass of paper_trader.py. -/
structure TradeRecord where
  id : String
  timestamp : ℚ
  original_wallet : String
  market_id : String
  outcome : String
  side : Side
  shares : ℚ
  price : ℚ
  amount : ℚ
  fees : ℚ
  slippage : ℚ
  total_cost : ℚ
  realized_pnl : Option ℚ
  realized_pnl_percent : Option ℚ
deriving DecidableEq, Repr

/-- The paper-trading configuration values read in `PaperTrader.__init__`. -/
structure TraderConfig where
  initial_balance : ℚ := 10000
  slippage_min : ℚ := 1 / 200
  slippage_max : ℚ := 1 / 100
  gas_cost_gwei : ℚ := 50
  gas_limit : ℚ := 200000
deriving DecidableEq, Repr

/-- Constant `PaperTrader.TAKER_FEE_RATE = 0.002`. -/
def TAKER_FEE_RATE : ℚ := 1 / 500

/-- Simulated gas cost in USDC:
`(gas_cost_gwei * 1e-9) * gas_limit * 0.50` in `execute_trade`. -/
def gasCostUsdc (cfg : TraderConfig) : ℚ :=
  cfg.gas_cost_gwei * (1 / 1000000000) * cfg.gas_limit * (1 / 2)

/-- Mutable state of a `PaperTrader`: balance, the `positions` dict keyed by
`"market_id:outcome"` (insertion-ordered association list), and the trade
history, newest first. -/
structure TraderState where
  balance : ℚ
  positions : List (String × Position)
  trade_history : List TradeRecord
deriving DecidableEq, Repr

/-- Fresh state right after `__init__` with no persisted data. -/
def initialTraderState (cfg : TraderConfig) : TraderState :=
  { balance := cfg.initial_balance, positions := [], trade_history := [] }

/-- Dict lookup `self.positions.get(key)` on the association list. -/
def lookupPos (l : List (String × Position)) (k : String) : Option Position :=
  (l.find? (fun p => p.1 = k)).map (fun p => p.2)

/-- In-place dict update `self.positions[key] = v` for a key already present. -/
def updatePos (l : List (String × Position)) (k : String) (v : Position) :
    List (String × Position) :=
  l.map (fun p => if p.1 = k then (k, v) else p)

/-- Dict deletion `del self.positions[key]`. -/
def erasePos (l : List (String × Position)) (k : String) : List (String × Position) :=
  l.filter (fun p => p.1 ≠ k)

/-- One call to `PaperTrader.execute_trade`: all run-time inputs, with the
slippage draw and the current wall-clock time made explicit. -/
structure TradeReq where
  original_wallet : String
  market_id : String
  outcome : String
  side : Side
  shares : ℚ
  price : ℚ
  trade_id : Option String := none
  slippage : ℚ
  now : ℚ
deriving DecidableEq, Repr

/-- Structured content of the message string returned by `execute_trade`. -/
inductive TradeMsg where
  | insufficientBalance (balance total_cost : ℚ)
  | noPosition (key : String)
  | insufficientShares (posShares reqShares : ℚ)
  | executed
deriving DecidableEq, Repr

/-- Method `PaperTrader.execute_trade` (paper_trader.py lines 284-423), returning the
`(success, message, trade_record)` triple together with the updated state. -/
def execute_trade (cfg : TraderConfig) (s : TraderState) (r : TradeReq) :
    (Bool × TradeMsg × Option TradeRecord) × TraderState :=
  let tid := match r.trade_id with
    | some t => t
    | none => toString r.now ++ "_" ++ r.market_id.take 8
  let executed_price :=
    if r.side = Side.BUY then r.price * (1 + r.slippage) else r.price * (1 - r.slippage)
  let amount := r.shares * executed_price
  let fees := amount * TAKER_FEE_RATE
  let gas := gasCostUsdc cfg
  let total_cost := amount + fees + gas
  let key := r.market_id ++ ":" ++ r.outcome
  match r.side with
  | Side.BUY =>
    if total_cost > s.balance then
      ((false, TradeMsg.insufficientBalance s.balance total_cost, none), s)
    else
      let positions' :=
        match lookupPos s.positions key with
        | some pos =>
          let total_shares := pos.shares + r.shares
          let avg_price :=
            (pos.entry_price * pos.shares + executed_price * r.shares) / total_shares
          updatePos s.positions key
            { pos with entry_price := avg_price, shares := total_shares }
        | none =>
          s.positions ++ [(key,
            { market_id := r.market_id
              outcome := r.outcome
              entry_price := executed_price
              shares := r.shares
              side := PosSide.LONG
              opened_at := r.now
              trade_id := tid })]
      let record : TradeRecord :=
        { id := tid, timestamp := r.now, original_wallet := r.original_wallet
          market_id := r.market_id, outcome := r.outcome, side := Side.BUY
          shares := r.shares, price := executed_price, amount := amount
          fees := fees, slippage := r.slippage, total_cost := total_cost
          realized_pnl := none, realized_pnl_percent := none }
      ((true, TradeMsg.executed, some record),
        { balance := s.balance - total_cost
          positions := positions'
          trade_history := record :: s.trade_history })
  | Side.SELL =>
    match lookupPos s.positions key with
    | none => ((false, TradeMsg.noPosition key, none), s)
    | some pos =>
      if r.shares > pos.shares then
        ((false, TradeMsg.insufficientShares pos.shares r.shares, none), s)
      else
        let realized_pnl :=
          if pos.side = PosSide.LONG then
            (executed_price - pos.entry_price) * r.shares - fees - gas
          else
            (pos.entry_price - executed_price) * r.shares - fees - gas
        let realized_pnl_percent :=
          if pos.side = PosSide.LONG then (executed_price / pos.entry_price - 1) * 100
          else (pos.entry_price / executed_price - 1) * 100
        let positions' :=
          if r.shares ≥ pos.shares * (999 / 1000) then erasePos s.positions key
          else updatePos s.positions key { pos with shares := pos.shares - r.shares }
        let record : TradeRecord :=
          { id := tid, timestamp := r.now, original_wallet := r.original_wallet
            market_id := r.market_id, outcome := r.outcome, side := Side.SELL
            shares := r.shares, price := executed_price, amount := amount
            fees := fees, slippage := r.slippage, total_cost := total_cost
            realized_pnl := some realized_pnl
            realized_pnl_percent := some realized_pnl_percent }
        ((true, TradeMsg.executed, some record),
          { balance := s.balance + (amount - fees - gas)
            positions := positions'
            trade_history := record :: s.trade_history })

/-- Run a sequence of `execute_trade` calls, threading the ledger state. -/
def apply_trades (cfg : TraderConfig) (s : TraderState) : List TradeReq → TraderState
  | [] => s
  | r :: rs => apply_trades cfg (execute_trade cfg s r).2 rs

/-- Signed balance effect of one TradeRecord: a BUY fill debits its
`total_cost`, a SELL fill credits `amount - fees - gas`. -/
def recordEffect (cfg : TraderConfig) (t : TradeRecord) : ℚ :=
  if t.side = Side.BUY then -t.total_cost else t.amount - t.fees - gasCostUsdc cfg

/-- Per-call accounting: each `execute_trade` call either leaves the state
untouched (rejection) or prepends exactly one TradeRecord whose signed effect
is the whole balance change. -/
theorem execute_trade_step (cfg : TraderConfig) (s : TraderState) (r : TradeReq) :
    ∃ new : List TradeRecord,
      (execute_trade cfg s r).2.trade_history = new ++ s.trade_history ∧
      (execute_trade cfg s r).2.balance =
        s.balance + (new.map (recordEffect cfg)).sum := by
  cases hside : r.side
  case BUY =>
    simp only [execute_trade, hside, reduceCtorEq, ite_true, ite_false, reduceIte]
    split
    · exact ⟨[], rfl, by simp⟩
    · refine ⟨[_], rfl, ?_⟩
      simp [recordEffect]
      try ring
  case SELL =>
    simp only [execute_trade, hside, reduceCtorEq, ite_true, ite_false, reduceIte]
    split
    · exact ⟨[], rfl, by simp⟩
    · split
      · exact ⟨[], rfl, by simp⟩
      · refine ⟨[_], rfl, ?_⟩
        simp [recordEffect]
        try ring

/-- C1 — Balance conservation of the Position Ledger: over any sequence of
`execute_trade` calls the final balance equals the initial balance plus the
signed effect of exactly the TradeRecords appended during the run — each
successful BUY debits `total_cost = amount + fees + gas` and each successful
SELL credits `amount - fees - gas`, while rejected calls append no record and
change nothing, so every balance change is traceable to exactly one
TradeRecord. -/
theorem balance_conservation (cfg : TraderConfig) (s : TraderState)
    (reqs : List TradeReq) :
    ∃ new : List TradeRecord,
      (apply_trades cfg s reqs).trade_history = new ++ s.trade_history ∧
      (apply_trades cfg s reqs).balance =
        s.balance + (new.map (recordEffect cfg)).sum := by
  induction reqs generalizing s with
  | nil => exact ⟨[], rfl, by simp [apply_trades]⟩
  | cons r rs ih =>
    obtain ⟨n1, h1, b1⟩ := execute_trade_step cfg s r
    obtain ⟨n2, h2, b2⟩ := ih (execute_trade cfg s r).2
    refine ⟨n2 ++ n1, ?_, ?_⟩
    · simp [apply_trades, h2, h1]
    · simp [apply_trades, b2, b1]
      ring

/-- The executed price after the slippage draw:
`price * (1 + slippage)` for BUY, `price * (1 - slippage)` for SELL. -/
def executedPrice (r : TradeReq) : ℚ :=
  if r.side = Side.BUY then r.price * (1 + r.slippage) else r.price * (1 - r.slippage)

/-- Definition `amount = shares * executed_price`. -/
def tradeAmount (r : TradeReq) : ℚ := r.shares * executedPrice r

/-- Definition `fees = amount * TAKER_FEE_RATE`. -/
def tradeFees (r : TradeReq) : ℚ := tradeAmount r * TAKER_FEE_RATE

/-- Definition `total_cost = amount + fees + gas_cost_usdc`. -/
def tradeTotalCost (cfg : TraderConfig) (r : TradeReq) : ℚ :=
  tradeAmount r + tradeFees r + gasCostUsdc cfg

/-- The positions-dict key `f"{market_id}:{outcome}"`. -/
def positionKey (market_id outcome : String) : String := market_id ++ ":" ++ outcome

theorem lookupPos_updatePos (l : List (String × Position)) (k : String) (v : Position) :
    lookupPos (updatePos l k v) k = (lookupPos l k).map (fun _ => v) := by
  induction l with
  | nil => rfl
  | cons p t ih =>
    by_cases h : p.1 = k
    · simp [lookupPos, updatePos, List.find?_cons_of_pos, h]
    · simp only [updatePos, List.map_cons, if_neg h]
      rw [lookupPos, List.find?_cons_of_neg, lookupPos, List.find?_cons_of_neg]
      · exact ih
      · simp [h]
      · simp [h]

theorem lookupPos_erasePos (l : List (String × Position)) (k : String) :
    lookupPos (erasePos l k) k = none := by
  have hf : (erasePos l k).find? (fun p => decide (p.1 = k)) = none := by
    rw [List.find?_eq_none]
    intro p hp
    have h2 := (List.mem_filter.mp hp).2
    simp at h2 ⊢
    exact h2
  simp [lookupPos, hf]

/-- C4 — Ledger rejections are structured and atomic: an over-budget BUY, a
SELL with no position for the key, or a SELL of more shares than held each
return `(success = false, reason, no record)` and leave balance, positions and
trade history exactly unchanged. -/
theorem execute_trade_rejects_atomically (cfg : TraderConfig) (s : TraderState)
    (r : TradeReq) :
    (r.side = Side.BUY → tradeTotalCost cfg r > s.balance →
      execute_trade cfg s r =
        ((false, TradeMsg.insufficientBalance s.balance (tradeTotalCost cfg r), none), s)) ∧
    (r.side = Side.SELL →
      lookupPos s.positions (positionKey r.market_id r.outcome) = none →
      execute_trade cfg s r =
        ((false, TradeMsg.noPosition (positionKey r.market_id r.outcome), none), s)) ∧
    (∀ pos, r.side = Side.SELL →
      lookupPos s.positions (positionKey r.market_id r.outcome) = some pos →
      r.shares > pos.shares →
      execute_trade cfg s r =
        ((false, TradeMsg.insufficientShares pos.shares r.shares, none), s)) := by
  refine ⟨?_, ?_, ?_⟩
  · intro hside hgt
    simp only [tradeTotalCost, tradeAmount, tradeFees, executedPrice, hside,
      reduceIte] at hgt ⊢
    simp only [execute_trade, hside, reduceIte]
    split
    · rfl
    · next h => exact absurd hgt h
  · intro hside hnone
    simp only [positionKey] at hnone
    simp [execute_trade, hside, hnone, positionKey]
  · intro pos hside hsome hgt
    simp only [positionKey] at hsome
    simp only [gt_iff_lt] at hgt
    simp [execute_trade, hside, hsome, if_pos hgt]

/-- C9 — Partial-close frame and removal threshold: a successful SELL of
strictly less than 99.9% of the position leaves it in the map with `shares`
reduced by exactly the sold amount and every other field untouched; a SELL of
at least 99.9% of the position's shares removes it entirely. -/
theorem sell_close_threshold (cfg : TraderConfig) (s : TraderState) (r : TradeReq)
    (pos : Position)
    (hside : r.side = Side.SELL)
    (hpos : lookupPos s.positions (positionKey r.market_id r.outcome) = some pos)
    (hsh : r.shares ≤ pos.shares) :
    (r.shares < pos.shares * (999 / 1000) →
      lookupPos (execute_trade cfg s r).2.positions (positionKey r.market_id r.outcome) =
        some { pos with shares := pos.shares - r.shares }) ∧
    (pos.shares * (999 / 1000) ≤ r.shares →
      lookupPos (execute_trade cfg s r).2.positions (positionKey r.market_id r.outcome) =
        none) := by
  have hng : ¬ r.shares > pos.shares := not_lt.mpr hsh
  simp only [positionKey] at hpos ⊢
  constructor
  · intro hlt
    have hnge : ¬ r.shares ≥ pos.shares * (999 / 1000) := not_le.mpr hlt
    simp only [execute_trade, hside, reduceIte, hpos, if_neg hng, if_neg hnge]
    rw [lookupPos_updatePos, hpos]
    rfl
  · intro hge
    simp only [execute_trade, hside, reduceIte, hpos, if_neg hng, if_pos hge]
    exact lookupPos_erasePos s.positions (r.market_id ++ ":" ++ r.outcome)

/-- Concrete ledger used by witness theorems: a single LONG position of 10
shares of market `"m"`, outcome `"Yes"`. -/
def posW : Position :=
  { market_id := "m", outcome := "Yes", entry_price := 1 / 2, shares := 10
    side := PosSide.LONG, opened_at := 0, trade_id := "t0" }

def cfgW : TraderConfig := {}

def sW : TraderState :=
  { balance := 100, positions := [("m:Yes", posW)], trade_history := [] }

/-- A SELL of 4 of the 10 shares (a 40% partial close). -/
def rPartialW : TradeReq :=
  { original_wallet := "w", market_id := "m", outcome := "Yes", side := Side.SELL
    shares := 4, price := 3 / 5, slippage := 0, now := 100 }

/-- A SELL of 9.99 of the 10 shares: strictly fewer than the position's
shares, yet exactly 99.9% of them. -/
def rBigW : TradeReq :=
  { original_wallet := "w", market_id := "m", outcome := "Yes", side := Side.SELL
    shares := 999 / 100, price := 3 / 5, slippage := 0, now := 100 }

/-- Witness for `sell_close_threshold`: the 40% close keeps the position with
`10 - 4` shares; the 99.9% close removes it although 9.99 < 10. -/
theorem sell_close_threshold_witness :
    lookupPos (execute_trade cfgW sW rPartialW).2.positions
        (positionKey rPartialW.market_id rPartialW.outcome) =
      some { market_id := posW.market_id, outcome := posW.outcome
             entry_price := posW.entry_price, shares := posW.shares - rPartialW.shares
             side := posW.side, opened_at := posW.opened_at, trade_id := posW.trade_id
             current_price := posW.current_price, unrealized_pnl := posW.unrealized_pnl
             unrealized_pnl_percent := posW.unrealized_pnl_percent } ∧
    lookupPos (execute_trade cfgW sW rBigW).2.positions
        (positionKey rBigW.market_id rBigW.outcome) = none := by
  constructor
  · exact (sell_close_threshold cfgW sW rPartialW posW rfl
      (by simp [sW, rPartialW, posW, positionKey, lookupPos])
      (by norm_num [rPartialW, posW])).1 (by norm_num [rPartialW, posW])
  · exact (sell_close_threshold cfgW sW rBigW posW rfl
      (by simp [sW, rBigW, posW, positionKey, lookupPos])
      (by norm_num [rBigW, posW])).2 (by norm_num [rBigW, posW])

/-- Every position of the map has side LONG. -/
def allLong (l : List (String × Position)) : Prop :=
  ∀ p ∈ l, p.2.side = PosSide.LONG

theorem mem_of_lookupPos (l : List (String × Position)) (k : String) (pos : Position)
    (h : lookupPos l k = some pos) : ∃ k', (k', pos) ∈ l := by
  simp only [lookupPos] at h
  rcases Option.map_eq_some'.mp h with ⟨q, hq, hq2⟩
  have hm := List.mem_of_find?_eq_some hq
  exact ⟨q.1, by rwa [← hq2]⟩

theorem allLong_updatePos (l : List (String × Position)) (k : String) (v : Position)
    (h : allLong l) (hv : v.side = PosSide.LONG) : allLong (updatePos l k v) := by
  intro p hp
  simp only [updatePos] at hp
  rcases List.mem_map.mp hp with ⟨q, hq, rfl⟩
  by_cases hk : q.1 = k
  · simpa [hk] using hv
  · simpa [hk] using h q hq

theorem allLong_execute_trade (cfg : TraderConfig) (s : TraderState) (r : TradeReq)
    (h : allLong s.positions) : allLong (execute_trade cfg s r).2.positions := by
  cases hside : r.side
  case BUY =>
    simp only [execute_trade, hside, reduceIte]
    split
    · exact h
    · show allLong (match lookupPos s.positions _ with | some _ => _ | none => _)
      split
      · next pos heq =>
        rcases mem_of_lookupPos _ _ _ heq with ⟨k', hk'⟩
        exact allLong_updatePos _ _ _ h (h (k', pos) hk')
      · intro p hp
        rcases List.mem_append.mp hp with hp | hp
        · exact h p hp
        · simp only [List.mem_singleton] at hp
          subst hp
          rfl
  case SELL =>
    simp only [execute_trade, hside, reduceIte]
    split
    · exact h
    · next pos heq =>
      split
      · exact h
      · show allLong (if _ then _ else _)
        rcases mem_of_lookupPos _ _ _ heq with ⟨k', hk'⟩
        split
        · intro p hp
          exact h p (List.mem_of_mem_filter hp)
        · exact allLong_updatePos _ _ _ h (h (k', pos) hk')

theorem allLong_apply_trades (cfg : TraderConfig) (s : TraderState)
    (reqs : List TradeReq) (h : allLong s.positions) :
    allLong (apply_trades cfg s reqs).positions := by
  induction reqs generalizing s with
  | nil => exact h
  | cons r rs ih => exact ih _ (allLong_execute_trade cfg s r h)

/-- C10 — Starting from an empty ledger, every position ever present in the
positions map has side LONG: `execute_trade` only creates LONG positions and
never changes a side, so (every intermediate state being the final state of a
prefix of the call sequence) the SHORT realized-PnL branch of the close
computation is unreachable through the ledger's public interface. -/
theorem ledger_long_only (cfg : TraderConfig) (reqs : List TradeReq) :
    allLong (apply_trades cfg (initialTraderState cfg) reqs).positions :=
  allLong_apply_trades cfg (initialTraderState cfg) reqs (by intro p hp; cases hp)

/-! ## Risk Gate (scripts/risk_manager.py) -/

/-- Python `str.lower()` on wallet addresses, structural over the characters. -/
def lowerStr (s : String) : String := ⟨s.data.map Char.toLower⟩

/-- Calendar day of a timestamp (`datetime.utcnow().date().isoformat()` keys
become the day number since the epoch). -/
def dateOf (t : ℚ) : ℤ := ⌊t / 86400⌋

/-- Structured content of the stored halt-reason string; the only caller of
`_halt_trading` in risk_manager.py is the daily-loss check. -/
inductive HaltMsg where
  | dailyLossHit (loss limit : ℚ)
deriving DecidableEq, Repr

/-- Structured content of `WalletPerformance.unfollow_reason` as set by
`check_trade_allowed` (win rate below the configured floor). -/
inductive UnfollowReason where
  | winRateBelow (rate floor : ℚ)
deriving DecidableEq, Repr

/-- Events appended by `_record_risk_event` on the paths modelled here. -/
inductive RiskEventTag where
  | autoUnfollow (address : String)
  | tradingHalted (reason : HaltMsg)
deriving DecidableEq, Repr

/-- The `WalletPerformance` dataclass; the rolling `trade_history` keeps
`(timestamp, pnl)` pairs, capped at 100 entries. -/
structure WalletPerformance where
  address : String
  name : String
  total_trades : ℕ := 0
  winning_trades : ℕ := 0
  losing_trades : ℕ := 0
  total_pnl : ℚ := 0
  trade_history : List (ℚ × ℚ) := []
  last_trade_time : Option ℚ := none
  is_active : Bool := true
  unfollow_reason : Option UnfollowReason := none
deriving DecidableEq, Repr

/-- Property `WalletPerformance.win_rate`: 0 for no trades, else percentage of wins. -/
def win_rate (p : WalletPerformance) : ℚ :=
  if p.total_trades = 0 then 0 else ((p.winning_trades : ℚ) / (p.total_trades : ℚ)) * 100

/-- Method `WalletPerformance.record_trade`. -/
def record_trade (p : WalletPerformance) (now trade_pnl : ℚ) : WalletPerformance :=
  let p1 := { p with total_trades := p.total_trades + 1, total_pnl := p.total_pnl + trade_pnl }
  let p2 :=
    if trade_pnl > 0 then { p1 with winning_trades := p1.winning_trades + 1 }
    else if trade_pnl < 0 then { p1 with losing_trades := p1.losing_trades + 1 }
    else p1
  let h := p2.trade_history ++ [(now, trade_pnl)]
  { p2 with
    trade_history := if h.length > 100 then h.drop (h.length - 100) else h
    last_trade_time := some now }

/-- Risk-management configuration values read in `RiskManager.__init__`. -/
structure RiskConfig where
  daily_loss_limit_percent : ℚ := 5
  max_position_size_percent : ℚ := 5
  max_concurrent_positions : ℕ := 10
  min_win_rate_percent : ℚ := 50
  min_trades_for_win_rate : ℕ := 20
  auto_unfollow_bad_performers : Bool := true
  stop_loss_percent : ℚ := 10
  take_profit_percent : ℚ := 20
deriving DecidableEq, Repr

/-- Mutable state of a `RiskManager`: per-wallet performance dict,
date-keyed daily-loss dict, risk events, blocked set, and halt state. -/
structure RiskState where
  wallet_performance : List (String × WalletPerformance) := []
  daily_losses : List (ℤ × ℚ) := []
  risk_events : List (ℚ × RiskEventTag) := []
  blocked_wallets : List String := []
  trading_halted : Bool := false
  trading_halt_reason : Option HaltMsg := none
  trading_halt_until : Option ℚ := none
deriving DecidableEq, Repr

/-- Dict lookup on the wallet-performance association list. -/
def lookupPerf (l : List (String × WalletPerformance)) (k : String) :
    Option WalletPerformance :=
  (l.find? (fun p => p.1 = k)).map (fun p => p.2)

/-- In-place dict update of the wallet-performance association list. -/
def updatePerf (l : List (String × WalletPerformance)) (k : String)
    (v : WalletPerformance) : List (String × WalletPerformance) :=
  l.map (fun p => if p.1 = k then (k, v) else p)

/-- Read `self.daily_losses.get(today, 0)` (defaultdict of 0). -/
def dailyLossOf (l : List (ℤ × ℚ)) (d : ℤ) : ℚ :=
  ((l.find? (fun p => p.1 = d)).map (fun p => p.2)).getD 0

/-- Update `self.daily_losses[today] += x` on the defaultdict. -/
def addDailyLoss (l : List (ℤ × ℚ)) (d : ℤ) (x : ℚ) : List (ℤ × ℚ) :=
  if (l.find? (fun p => p.1 = d)).isSome then
    l.map (fun p => if p.1 = d then (p.1, p.2 + x) else p)
  else l ++ [(d, x)]

/-- Python `set.add` on the blocked-wallet set (modelled as a duplicate-free list). -/
def setAdd (l : List String) (a : String) : List String :=
  if a ∈ l then l else l ++ [a]

/-- Method `RiskManager._record_risk_event`: append, keep the last 1000. -/
def record_risk_event (st : RiskState) (now : ℚ) (tag : RiskEventTag) : RiskState :=
  let evs := st.risk_events ++ [(now, tag)]
  { st with risk_events := if evs.length > 1000 then evs.drop (evs.length - 1000) else evs }

/-- Method `RiskManager._halt_trading`: set the halt flag, reason and expiry
(`now + hours`), and record a risk event. -/
def halt_trading (st : RiskState) (now : ℚ) (reason : HaltMsg) (hours : ℚ) : RiskState :=
  record_risk_event
    { st with
      trading_halted := true
      trading_halt_reason := some reason
      trading_halt_until := some (now + hours * 3600) }
    now (RiskEventTag.tradingHalted reason)

/-- Structured content of the `(allowed, reason)` strings returned by
`check_trade_allowed`. -/
inductive GateMsg where
  | tradingHalted (reason : Option HaltMsg)
  | walletBlocked
  | winRateBelow (rate floor : ℚ)
  | dailyLossReached
  | tradeSizeExceeded (amount maxSize : ℚ)
  | maxPositionsReached (limit : ℕ)
  | tradeAllowed
deriving DecidableEq, Repr

/-- The halt check at the top of `check_trade_allowed`:
`self.trading_halted and self.trading_halt_until and now < halt_until`. -/
def halt_active (st : RiskState) (now : ℚ) : Bool :=
  st.trading_halted &&
    (match st.trading_halt_until with
     | some u => decide (now < u)
     | none => false)

/-- Auto-resume: clear the halt flag, reason and expiry. -/
def clear_halt (st : RiskState) : RiskState :=
  { st with trading_halted := false, trading_halt_reason := none, trading_halt_until := none }

/-- Checks 4-6 of `check_trade_allowed` (daily loss, position size, max
concurrent positions), reached once the halt/blocked/win-rate gates pass. -/
def check_limits (cfg : RiskConfig) (st : RiskState) (now : ℚ)
    (current_balance trade_amount : ℚ) (open_positions_count : ℕ) :
    (Bool × GateMsg) × RiskState :=
  let daily_loss := dailyLossOf st.daily_losses (dateOf now)
  let daily_loss_limit := current_balance * (cfg.daily_loss_limit_percent / 100)
  if daily_loss ≥ daily_loss_limit then
    ((false, GateMsg.dailyLossReached),
      halt_trading st now (HaltMsg.dailyLossHit daily_loss daily_loss_limit) 24)
  else
    let max_position_size := current_balance * (cfg.max_position_size_percent / 100)
    if trade_amount > max_position_size then
      ((false, GateMsg.tradeSizeExceeded trade_amount max_position_size), st)
    else if open_positions_count ≥ cfg.max_concurrent_positions then
      ((false, GateMsg.maxPositionsReached cfg.max_concurrent_positions), st)
    else ((true, GateMsg.tradeAllowed), st)

/-- Method `RiskManager.check_trade_allowed` (risk_manager.py lines 99-163). -/
def check_trade_allowed (cfg : RiskConfig) (st : RiskState) (now : ℚ)
    (wallet_address market_id : String) (current_balance trade_amount : ℚ)
    (open_positions_count : ℕ) : (Bool × GateMsg) × RiskState :=
  let addr := lowerStr wallet_address
  if halt_active st now then
    ((false, GateMsg.tradingHalted st.trading_halt_reason), st)
  else
    let st1 := if st.trading_halted then clear_halt st else st
    if addr ∈ st1.blocked_wallets then
      ((false, GateMsg.walletBlocked), st1)
    else
      match lookupPerf st1.wallet_performance addr with
      | some perf =>
        if cfg.auto_unfollow_bad_performers &&
            decide (perf.total_trades ≥ cfg.min_trades_for_win_rate) &&
            decide (win_rate perf < cfg.min_win_rate_percent) then
          let st2 :=
            { st1 with
              blocked_wallets := setAdd st1.blocked_wallets addr
              wallet_performance := updatePerf st1.wallet_performance addr
                { perf with
                  is_active := false
                  unfollow_reason := some
                    (UnfollowReason.winRateBelow (win_rate perf) cfg.min_win_rate_percent) } }
          ((false, GateMsg.winRateBelow (win_rate perf) cfg.min_win_rate_percent),
            record_risk_event st2 now (RiskEventTag.autoUnfollow addr))
        else check_limits cfg st1 now current_balance trade_amount open_positions_count
      | none => check_limits cfg st1 now current_balance trade_amount open_positions_count

/-- Method `RiskManager.record_trade_result` (risk_manager.py lines 191-207). -/
def record_trade_result (st : RiskState) (now : ℚ) (wallet_address : String)
    (trade_pnl : ℚ) : RiskState :=
  let addr := lowerStr wallet_address
  let st1 :=
    match lookupPerf st.wallet_performance addr with
    | some perf =>
      { st with
        wallet_performance := updatePerf st.wallet_performance addr
          (record_trade perf now trade_pnl) }
    | none => st
  if trade_pnl < 0 then
    { st1 with daily_losses := addDailyLoss st1.daily_losses (dateOf now) |trade_pnl| }
  else st1

/-- The trading hot path of scripts/main.py `on_trade_detected` after the
risk check has allowed the trade: `paper_trader.execute_trade` is called and
the RiskManager is not touched again — in particular, no caller in the
repository (outside tests) ever invokes `record_trade_result`, so the risk
state is returned unchanged. -/
def system_execute_trade (cfg : TraderConfig) (ledger : TraderState)
    (risk : RiskState) (r : TradeReq) :
    (Bool × TradeMsg × Option TradeRecord) × TraderState × RiskState :=
  let out := execute_trade cfg ledger r
  (out.1, out.2, risk)

/-- Trader config with the gas cost zeroed out, for concrete evaluation. -/
def cfgC : TraderConfig := { gas_cost_gwei := 0 }

/-- A LONG position of 2 shares entered at price 1. -/
def posC : Position :=
  { market_id := "m", outcome := "Yes", entry_price := 1, shares := 2
    side := PosSide.LONG, opened_at := 0, trade_id := "t1" }

def sC : TraderState :=
  { balance := 0, positions := [("m:Yes", posC)], trade_history := [] }

def perfC : WalletPerformance := { address := "w", name := "W" }

def riskC : RiskState := { wallet_performance := [("w", perfC)] }

/-- A full close: SELL 2 shares at price 1/2 with no slippage, a losing
trade with realized PnL `-1 - fees = -501/500`. -/
def rC : TradeReq :=
  { original_wallet := "w", market_id := "m", outcome := "Yes", side := Side.SELL
    shares := 2, price := 1 / 2, slippage := 0, now := 1000 }

/-- C2 — the claim fails on the code: the concrete losing close `rC`
succeeds and produces a TradeRecord with realized PnL `-501/500 < 0`, yet the
combined transition leaves the risk state exactly as it was (the Ledger never
invokes `record_trade_result`), whereas the `record_trade_result` callback
the claim describes would have bumped the source's loss counter and added
`|pnl|` to today's accumulated-loss bucket. -/
theorem close_without_risk_callback :
    (system_execute_trade cfgC sC riskC rC).1.1 = true ∧
    ((system_execute_trade cfgC sC riskC rC).1.2.2.map (fun tr => tr.side) =
      some Side.SELL) ∧
    ((system_execute_trade cfgC sC riskC rC).1.2.2.bind (fun tr => tr.realized_pnl) =
      some (-501 / 500)) ∧
    (-501 / 500 : ℚ) < 0 ∧
    (system_execute_trade cfgC sC riskC rC).2.2 = riskC ∧
    dailyLossOf riskC.daily_losses (dateOf rC.now) = 0 ∧
    dailyLossOf (record_trade_result riskC rC.now rC.original_wallet
        (-501 / 500)).daily_losses (dateOf rC.now) = 501 / 500 ∧
    (∃ p, lookupPerf (record_trade_result riskC rC.now rC.original_wallet
        (-501 / 500)).wallet_performance (lowerStr rC.original_wallet) = some p ∧
      p.losing_trades = 1 ∧ p.total_trades = 1) := by
  refine ⟨?_, ?_, ?_, by norm_num, rfl, by norm_num [riskC, dailyLossOf], ?_, ?_⟩
  · simp [system_execute_trade, execute_trade, rC, sC, cfgC, posC, lookupPos]
  · simp [system_execute_trade, execute_trade, rC, sC, cfgC, posC, lookupPos]
  · simp [system_execute_trade, execute_trade, rC, sC, cfgC, posC, lookupPos,
      TAKER_FEE_RATE, gasCostUsdc]
    norm_num
  · simp [record_trade_result, riskC, perfC, lowerStr, lookupPerf, dailyLossOf,
      addDailyLoss, dateOf, rC]
    norm_num
  · refine ⟨record_trade perfC 1000 (-501 / 500), ?_, ?_, ?_⟩
    · simp [record_trade_result, riskC, perfC, lowerStr, lookupPerf, updatePerf,
        rC, dateOf]
      try norm_num
    · norm_num [record_trade, perfC]
    · norm_num [record_trade, perfC]

/-- The halt has expired (or has no expiry, which the code also treats as
ready to resume). -/
def halt_expired (st : RiskState) (now : ℚ) : Prop :=
  ∀ u, st.trading_halt_until = some u → u ≤ now

/-- The wallet-performance check (step 3 of `check_trade_allowed`) does not
fire for this source. -/
def no_auto_block (cfg : RiskConfig) (st : RiskState) (w : String) : Prop :=
  ∀ perf, lookupPerf st.wallet_performance (lowerStr w) = some perf →
    ¬(cfg.auto_unfollow_bad_performers = true ∧
      cfg.min_trades_for_win_rate ≤ perf.total_trades ∧
      win_rate perf < cfg.min_win_rate_percent)

/-- One `check_trade_allowed` call's run-time arguments. -/
structure CheckCall where
  now : ℚ
  wallet_address : String
  market_id : String
  current_balance : ℚ
  trade_amount : ℚ
  open_positions_count : ℕ
deriving DecidableEq, Repr

/-- Run a sequence of `check_trade_allowed` calls, threading the risk state
and collecting the `(allowed, reason)` results. -/
def run_checks (cfg : RiskConfig) (st : RiskState) :
    List CheckCall → List (Bool × GateMsg) × RiskState
  | [] => ([], st)
  | c :: cs =>
    let r := check_trade_allowed cfg st c.now c.wallet_address c.market_id
      c.current_balance c.trade_amount c.open_positions_count
    let rest := run_checks cfg r.2 cs
    (r.1 :: rest.1, rest.2)

theorem check_rejected_while_halted (cfg : RiskConfig) (st : RiskState) (now : ℚ)
    (w m : String) (bal amt : ℚ) (k : ℕ) (u : ℚ)
    (h1 : st.trading_halted = true) (h2 : st.trading_halt_until = some u)
    (h3 : now < u) :
    check_trade_allowed cfg st now w m bal amt k =
      ((false, GateMsg.tradingHalted st.trading_halt_reason), st) := by
  have hact : halt_active st now = true := by simp [halt_active, h1, h2, h3]
  simp [check_trade_allowed, hact]

theorem check_limits_daily_loss (cfg : RiskConfig) (st : RiskState) (now : ℚ)
    (bal amt : ℚ) (k : ℕ)
    (hdl : dailyLossOf st.daily_losses (dateOf now) ≥
      bal * (cfg.daily_loss_limit_percent / 100)) :
    check_limits cfg st now bal amt k =
      ((false, GateMsg.dailyLossReached),
        halt_trading st now
          (HaltMsg.dailyLossHit (dailyLossOf st.daily_losses (dateOf now))
            (bal * (cfg.daily_loss_limit_percent / 100))) 24) := by
  simp [check_limits, if_pos hdl]

/-- C3 — Daily-loss halting: (1) once today's recorded loss reaches
`balance * daily_loss_limit_percent / 100` an un-halted gate that reaches the
daily-loss check rejects the trade and sets a 24-hour halt; (2) while
`now < halt_until` every call is rejected with the stored halt reason and
changes nothing; (3) hence every call of a sequence whose times stay below
`halt_until` is rejected with the stored reason and the state survives
unchanged; (4) once `now >= halt_until` (or the expiry is absent) the halt
auto-clears and the call evaluates exactly as on the cleared state. -/
theorem daily_loss_halting (cfg : RiskConfig) :
    (∀ st now w m bal amt k u, st.trading_halted = true →
      st.trading_halt_until = some u → now < u →
      check_trade_allowed cfg st now w m bal amt k =
        ((false, GateMsg.tradingHalted st.trading_halt_reason), st)) ∧
    (∀ st now w m bal amt k, st.trading_halted = false →
      lowerStr w ∉ st.blocked_wallets →
      no_auto_block cfg st w →
      dailyLossOf st.daily_losses (dateOf now) ≥
        bal * (cfg.daily_loss_limit_percent / 100) →
      check_trade_allowed cfg st now w m bal amt k =
        ((false, GateMsg.dailyLossReached),
          halt_trading st now
            (HaltMsg.dailyLossHit (dailyLossOf st.daily_losses (dateOf now))
              (bal * (cfg.daily_loss_limit_percent / 100))) 24) ∧
      (halt_trading st now
          (HaltMsg.dailyLossHit (dailyLossOf st.daily_losses (dateOf now))
            (bal * (cfg.daily_loss_limit_percent / 100))) 24).trading_halted = true ∧
      (halt_trading st now
          (HaltMsg.dailyLossHit (dailyLossOf st.daily_losses (dateOf now))
            (bal * (cfg.daily_loss_limit_percent / 100))) 24).trading_halt_until =
        some (now + 24 * 3600)) ∧
    (∀ st u calls, st.trading_halted = true → st.trading_halt_until = some u →
      (∀ c ∈ calls, c.now < u) →
      (run_checks cfg st calls).2 = st ∧
      ∀ r ∈ (run_checks cfg st calls).1,
        r = (false, GateMsg.tradingHalted st.trading_halt_reason)) ∧
    (∀ st now w m bal amt k, st.trading_halted = true → halt_expired st now →
      check_trade_allowed cfg st now w m bal amt k =
        check_trade_allowed cfg (clear_halt st) now w m bal amt k) := by
  refine ⟨?_, ?_, ?_, ?_⟩
  · intro st now w m bal amt k u h1 h2 h3
    exact check_rejected_while_halted cfg st now w m bal amt k u h1 h2 h3
  · intro st now w m bal amt k h0 hb hna hdl
    have hact : halt_active st now = false := by simp [halt_active, h0]
    refine ⟨?_, rfl, rfl⟩
    simp only [check_trade_allowed, hact, Bool.false_eq_true, if_false, h0]
    rw [if_neg hb]
    cases hl : lookupPerf st.wallet_performance (lowerStr w) with
    | none => exact check_limits_daily_loss cfg st now bal amt k hdl
    | some perf =>
      have hcond : (cfg.auto_unfollow_bad_performers &&
          decide (perf.total_trades ≥ cfg.min_trades_for_win_rate) &&
          decide (win_rate perf < cfg.min_win_rate_percent)) = false := by
        have hn := hna perf hl
        cases hauto : cfg.auto_unfollow_bad_performers
        · simp
        · by_cases ht : cfg.min_trades_for_win_rate ≤ perf.total_trades
          · by_cases hw : win_rate perf < cfg.min_win_rate_percent
            · exact absurd ⟨hauto, ht, hw⟩ hn
            · simp [hw]
          · simp [ht]
      simp only [hcond, Bool.false_eq_true, if_false]
      exact check_limits_daily_loss cfg st now bal amt k hdl
  · intro st u calls h1 h2 hall
    induction calls with
    | nil => exact ⟨rfl, by intro r hr; cases hr⟩
    | cons c cs ih =>
      have hstep := check_rejected_while_halted cfg st c.now c.wallet_address
        c.market_id c.current_balance c.trade_amount c.open_positions_count u h1 h2
        (hall c (List.mem_cons_self c cs))
      have hrest := ih (fun d hd => hall d (List.mem_cons_of_mem c hd))
      constructor
      · simp [run_checks, hstep, hrest.1]
      · intro r hr
        simp only [run_checks, hstep] at hr
        rcases List.mem_cons.mp hr with hr | hr
        · exact hr
        · exact hrest.2 r hr
  · intro st now w m bal amt k h1 hexp
    have hact : halt_active st now = false := by
      cases hu : st.trading_halt_until with
      | none => simp [halt_active, hu]
      | some u =>
        have := hexp u hu
        simp [halt_active, hu, not_lt.mpr this]
    have hact2 : halt_active (clear_halt st) now = false := by
      simp [halt_active, clear_halt]
    have hproj : (clear_halt st).trading_halted = false := rfl
    simp [check_trade_allowed, hact, hact2, h1, hproj]

def stH : RiskState := { daily_losses := [(0, 100)] }

/-- Witness for `daily_loss_halting`: with the default 5% limit, a recorded
daily loss of 100 against a balance of 1000 makes the gate reject and set a
24-hour halt. -/
theorem daily_loss_halting_witness :
    check_trade_allowed {} stH 1000 "w" "m" 1000 1 0 =
      ((false, GateMsg.dailyLossReached),
        halt_trading stH 1000
          (HaltMsg.dailyLossHit (dailyLossOf stH.daily_losses (dateOf 1000))
            (1000 * (({} : RiskConfig).daily_loss_limit_percent / 100))) 24) :=
  ((daily_loss_halting {}).2.1 stH 1000 "w" "m" 1000 1 0 rfl (by simp [stH])
    (by simp only [no_auto_block]; intro p hp; simp [lookupPerf, stH] at hp)
    (by norm_num [dailyLossOf, dateOf, stH])).1

/-- Run a sequence of `record_trade_result` calls for one source `w`, each
entry being a `(timestamp, pnl)` pair. -/
def record_results_for (st : RiskState) (w : String) : List (ℚ × ℚ) → RiskState
  | [] => st
  | e :: rest => record_results_for (record_trade_result st e.1 w e.2) w rest

theorem lookupPerf_updatePerf (l : List (String × WalletPerformance)) (k : String)
    (v : WalletPerformance) :
    lookupPerf (updatePerf l k v) k = (lookupPerf l k).map (fun _ => v) := by
  induction l with
  | nil => rfl
  | cons p t ih =>
    by_cases h : p.1 = k
    · simp [lookupPerf, updatePerf, List.find?_cons_of_pos, h]
    · simp only [updatePerf, List.map_cons, if_neg h]
      rw [lookupPerf, List.find?_cons_of_neg, lookupPerf, List.find?_cons_of_neg]
      · exact ih
      · simp [h]
      · simp [h]

theorem record_trade_result_frame (st : RiskState) (now : ℚ) (w : String) (pnl : ℚ) :
    (record_trade_result st now w pnl).trading_halted = st.trading_halted ∧
    (record_trade_result st now w pnl).trading_halt_until = st.trading_halt_until ∧
    (record_trade_result st now w pnl).trading_halt_reason = st.trading_halt_reason ∧
    (record_trade_result st now w pnl).blocked_wallets = st.blocked_wallets := by
  simp only [record_trade_result]
  cases hl : lookupPerf st.wallet_performance (lowerStr w) <;>
    by_cases hp : pnl < 0 <;> simp [hl, hp]

theorem record_results_for_frame (w : String) :
    ∀ (losses : List (ℚ × ℚ)) (st : RiskState),
    (record_results_for st w losses).trading_halted = st.trading_halted ∧
    (record_results_for st w losses).blocked_wallets = st.blocked_wallets := by
  intro losses
  induction losses with
  | nil => exact fun st => ⟨rfl, rfl⟩
  | cons e rest ih =>
    intro st
    have hs := record_trade_result_frame st e.1 w e.2
    have hr := ih (record_trade_result st e.1 w e.2)
    exact ⟨hr.1.trans hs.1, hr.2.trans hs.2.2.2⟩

theorem record_results_for_counters (w : String) :
    ∀ (losses : List (ℚ × ℚ)) (st : RiskState) (perf : WalletPerformance),
    lookupPerf st.wallet_performance (lowerStr w) = some perf →
    (∀ e ∈ losses, e.2 < 0) →
    ∃ perfN,
      lookupPerf (record_results_for st w losses).wallet_performance (lowerStr w) =
        some perfN ∧
      perfN.total_trades = perf.total_trades + losses.length ∧
      perfN.winning_trades = perf.winning_trades := by
  intro losses
  induction losses with
  | nil => exact fun st perf h _ => ⟨perf, h, by simp [record_results_for], rfl⟩
  | cons e rest ih =>
    intro st perf h hneg
    have hstep : lookupPerf (record_trade_result st e.1 w e.2).wallet_performance
        (lowerStr w) = some (record_trade perf e.1 e.2) := by
      simp only [record_trade_result, h]
      by_cases hp : e.2 < 0 <;> simp [hp, lookupPerf_updatePerf, h]
    have hneg0 : e.2 < 0 := hneg e (List.mem_cons_self e rest)
    have hcount : (record_trade perf e.1 e.2).total_trades = perf.total_trades + 1 ∧
        (record_trade perf e.1 e.2).winning_trades = perf.winning_trades := by
      have hnp : ¬ e.2 > 0 := not_lt.mpr (le_of_lt hneg0)
      constructor <;> simp [record_trade, hnp, hneg0]
    obtain ⟨pN, h1, h2, h3⟩ := ih (record_trade_result st e.1 w e.2)
      (record_trade perf e.1 e.2) hstep (fun d hd => hneg d (List.mem_cons_of_mem e hd))
    refine ⟨pN, h1, ?_, h3.trans hcount.2⟩
    rw [h2, hcount.1, List.length_cons]
    omega

theorem mem_setAdd_self (l : List String) (a : String) : a ∈ setAdd l a := by
  by_cases h : a ∈ l <;> simp [setAdd, h]

/-- C8 — Auto-blocking of bad performers: with
`min_trades_for_win_rate = 20`, `min_win_rate_percent = 50` and
auto-unfollow enabled, after 20 losing trades recorded for a tracked,
un-blocked source via `record_trade_result`, the next `check_trade_allowed`
call for that source rejects the trade with the win-rate reason, adds the
source to the blocked set and marks its performance record inactive. -/
theorem auto_block_after_losses (cfg : RiskConfig) (st : RiskState) (w m : String)
    (losses : List (ℚ × ℚ)) (now bal amt : ℚ) (k : ℕ) (perf0 : WalletPerformance)
    (hc1 : cfg.min_trades_for_win_rate = 20)
    (hc2 : cfg.min_win_rate_percent = 50)
    (hc3 : cfg.auto_unfollow_bad_performers = true)
    (hhalt : st.trading_halted = false)
    (hblock : lowerStr w ∉ st.blocked_wallets)
    (hperf : lookupPerf st.wallet_performance (lowerStr w) = some perf0)
    (hfresh : perf0.total_trades = 0) (hfreshw : perf0.winning_trades = 0)
    (hlen : losses.length = 20)
    (hneg : ∀ e ∈ losses, e.2 < 0) :
    ∃ perfN,
      lookupPerf (record_results_for st w losses).wallet_performance (lowerStr w) =
        some perfN ∧
      win_rate perfN = 0 ∧
      (check_trade_allowed cfg (record_results_for st w losses) now w m bal amt k).1 =
        (false, GateMsg.winRateBelow 0 50) ∧
      lowerStr w ∈
        (check_trade_allowed cfg (record_results_for st w losses) now w m bal amt
          k).2.blocked_wallets ∧
      lookupPerf
          (check_trade_allowed cfg (record_results_for st w losses) now w m bal amt
            k).2.wallet_performance (lowerStr w) =
        some { perfN with
               is_active := false
               unfollow_reason := some (UnfollowReason.winRateBelow 0 50) } := by
  obtain ⟨perfN, hN, htot, hwin⟩ :=
    record_results_for_counters w losses st perf0 hperf hneg
  rw [hfresh, hlen] at htot
  rw [hfreshw] at hwin
  have hwr : win_rate perfN = 0 := by
    simp [win_rate, htot, hwin]
  have hframe := record_results_for_frame w losses st
  have hact : halt_active (record_results_for st w losses) now = false := by
    simp [halt_active, hframe.1, hhalt]
  have hblock1 : lowerStr w ∉ (record_results_for st w losses).blocked_wallets := by
    rw [hframe.2]
    exact hblock
  have hcond : (cfg.auto_unfollow_bad_performers &&
      decide (perfN.total_trades ≥ cfg.min_trades_for_win_rate) &&
      decide (win_rate perfN < cfg.min_win_rate_percent)) = true := by
    simp [hc3, hc1, hc2, htot, hwr]
  refine ⟨perfN, hN, hwr, ?_⟩
  simp only [check_trade_allowed, hact, Bool.false_eq_true, if_false, hframe.1,
    hhalt, if_neg hblock1, hN]
  rw [if_pos hcond]
  refine ⟨?_, ?_, ?_⟩
  · rw [hwr, hc2]
  · exact mem_setAdd_self _ _
  · show lookupPerf (updatePerf (record_results_for st w losses).wallet_performance
      (lowerStr w) _) (lowerStr w) = _
    rw [lookupPerf_updatePerf, hN, hwr, hc2]
    rfl

def perfE : WalletPerformance := { address := "w", name := "W" }

def riskE : RiskState := { wallet_performance := [("w", perfE)] }

/-- Twenty losing trades of PnL -1 each. -/
def lossesE : List (ℚ × ℚ) := List.replicate 20 (0, -1)

/-- Witness for `auto_block_after_losses`: 20 consecutive -1 trades for the
tracked source `"w"` under the default configuration auto-block it at the
next gate check. -/
theorem auto_block_after_losses_witness :
    ∃ perfN,
      lookupPerf (record_results_for riskE "w" lossesE).wallet_performance
        (lowerStr "w") = some perfN ∧
      win_rate perfN = 0 ∧
      (check_trade_allowed {} (record_results_for riskE "w" lossesE) 0 "w" "m"
        1000 1 0).1 = (false, GateMsg.winRateBelow 0 50) ∧
      lowerStr "w" ∈
        (check_trade_allowed {} (record_results_for riskE "w" lossesE) 0 "w" "m"
          1000 1 0).2.blocked_wallets ∧
      lookupPerf
          (check_trade_allowed {} (record_results_for riskE "w" lossesE) 0 "w" "m"
            1000 1 0).2.wallet_performance (lowerStr "w") =
        some { perfN with
               is_active := false
               unfollow_reason := some (UnfollowReason.winRateBelow 0 50) } :=
  auto_block_after_losses {} riskE "w" "m" lossesE 0 1000 1 0 perfE rfl rfl rfl rfl
    (by simp [riskE]) (by simp [riskE, perfE, lookupPerf, lowerStr]) rfl rfl
    (by decide) (by decide)

/-! ## Exit Evaluator (src/risk_manager.py) -/

/-- Exit thresholds of the spike-strategy RiskManager
(`stop_loss_percentage = 0.15`, `take_profit_percentage = 0.90`). -/
structure ExitConfig where
  stop_loss_pct : ℚ := 3 / 20
  take_profit_pct : ℚ := 9 / 10
deriving DecidableEq, Repr

/-- The reason strings returned by `should_exit_position`. -/
inductive ExitReason where
  | stop_loss
  | take_profit
  | market_expired
  | approaching_expiration
deriving DecidableEq, Repr

/-- The fields of src/position_manager.py's `Position` that
`should_exit_position` reads (`side` is `"BUY"`/`"SELL"` there). -/
structure XPosition where
  position_id : String
  side : Side
  entry_price : ℚ
  entry_time : ℚ
deriving DecidableEq, Repr

/-- Method `RiskManager.should_exit_position` (src/risk_manager.py lines 47-111).
`(False, 0.0, "")` is modelled as `none`; Python's `if not current_price`
treats both `None` and `0.0` as missing. -/
def should_exit_position (cfg : ExitConfig) (pos : XPosition)
    (current_price : Option ℚ) (now : ℚ) : Option (ℚ × ExitReason) :=
  match current_price with
  | none => none
  | some cp =>
    if cp = 0 then none
    else
      let pnl_percentage := (cp - pos.entry_price) / pos.entry_price
      if pnl_percentage ≤ -cfg.stop_loss_pct then some (cp, ExitReason.stop_loss)
      else if pnl_percentage ≥ cfg.take_profit_pct then some (cp, ExitReason.take_profit)
      else
        let time_held := now - pos.entry_time
        if time_held > 20 * 60 then some (cp, ExitReason.market_expired)
        else if time_held > 14 * 60 + 30 then
          some (cp, ExitReason.approaching_expiration)
        else none

/-- The exit decision table exactly as the claim words it: `pnl_pct` signed
per side (long as written, short sign-flipped) and both time thresholds
non-strict (`>=`). -/
def exit_decision_claim (cfg : ExitConfig) (pos : XPosition)
    (current_price : Option ℚ) (now : ℚ) : Option (ℚ × ExitReason) :=
  match current_price with
  | none => none
  | some cp =>
    if cp = 0 then none
    else
      let raw := (cp - pos.entry_price) / pos.entry_price
      let pnl_pct := if pos.side = Side.BUY then raw else -raw
      if pnl_pct ≤ -cfg.stop_loss_pct then some (cp, ExitReason.stop_loss)
      else if pnl_pct ≥ cfg.take_profit_pct then some (cp, ExitReason.take_profit)
      else if now - pos.entry_time ≥ 20 * 60 then some (cp, ExitReason.market_expired)
      else if now - pos.entry_time ≥ 14 * 60 + 30 then
        some (cp, ExitReason.approaching_expiration)
      else none

/-- A long position entered at price 1/2 at time 0. -/
def posX : XPosition :=
  { position_id := "p1", side := Side.BUY, entry_price := 1 / 2, entry_time := 0 }

/-- A short-side position entered at price 1/2 at time 0. -/
def posS : XPosition :=
  { position_id := "p2", side := Side.SELL, entry_price := 1 / 2, entry_time := 0 }

/-- C5 counterexample — the claim's table disagrees with the code: at
exactly 14 min 30 s held (claim: approaching-expiration exit, code: no exit
since the code compares strictly), and on a short-side position 20% under
water (claim: sign-flipped +20% PnL, no exit; code: never flips the sign and
exits with stop-loss). -/
theorem exit_evaluator_claim_counterexample :
    should_exit_position {} posX (some (1 / 2)) 870 = none ∧
    exit_decision_claim {} posX (some (1 / 2)) 870 =
      some (1 / 2, ExitReason.approaching_expiration) ∧
    should_exit_position {} posS (some (2 / 5)) 60 =
      some (2 / 5, ExitReason.stop_loss) ∧
    exit_decision_claim {} posS (some (2 / 5)) 60 = none := by
  refine ⟨?_, ?_, ?_, ?_⟩ <;>
    · try simp [should_exit_position, exit_decision_claim, posX, posS]
      try norm_num

/-- C5 (amended) — Exit Evaluator decision table: with a price available
(non-`None`, nonzero), the evaluator computes
`pnl_pct = (current - entry)/entry` regardless of the position's side and
decides in priority order: stop-loss iff `pnl_pct <= -stop_loss_pct`; else
take-profit iff `pnl_pct >= take_profit_pct`; else forced expiry iff
`time_held > 20 min` (strict); else approaching-expiration iff
`time_held > 14 min 30 s` (strict); else no exit; with no price available it
abstains. -/
theorem exit_evaluator_decision_table (cfg : ExitConfig) (pos : XPosition)
    (cp now : ℚ) (hcp : cp ≠ 0) :
    should_exit_position cfg pos none now = none ∧
    should_exit_position cfg pos (some 0) now = none ∧
    (should_exit_position cfg pos (some cp) now = some (cp, ExitReason.stop_loss) ↔
      (cp - pos.entry_price) / pos.entry_price ≤ -cfg.stop_loss_pct) ∧
    (should_exit_position cfg pos (some cp) now = some (cp, ExitReason.take_profit) ↔
      ¬((cp - pos.entry_price) / pos.entry_price ≤ -cfg.stop_loss_pct) ∧
      (cp - pos.entry_price) / pos.entry_price ≥ cfg.take_profit_pct) ∧
    (should_exit_position cfg pos (some cp) now = some (cp, ExitReason.market_expired) ↔
      ¬((cp - pos.entry_price) / pos.entry_price ≤ -cfg.stop_loss_pct) ∧
      ¬((cp - pos.entry_price) / pos.entry_price ≥ cfg.take_profit_pct) ∧
      now - pos.entry_time > 20 * 60) ∧
    (should_exit_position cfg pos (some cp) now =
        some (cp, ExitReason.approaching_expiration) ↔
      ¬((cp - pos.entry_price) / pos.entry_price ≤ -cfg.stop_loss_pct) ∧
      ¬((cp - pos.entry_price) / pos.entry_price ≥ cfg.take_profit_pct) ∧
      ¬(now - pos.entry_time > 20 * 60) ∧
      now - pos.entry_time > 14 * 60 + 30) ∧
    (should_exit_position cfg pos (some cp) now = none ↔
      ¬((cp - pos.entry_price) / pos.entry_price ≤ -cfg.stop_loss_pct) ∧
      ¬((cp - pos.entry_price) / pos.entry_price ≥ cfg.take_profit_pct) ∧
      ¬(now - pos.entry_time > 20 * 60) ∧
      ¬(now - pos.entry_time > 14 * 60 + 30)) := by
  refine ⟨rfl, by simp [should_exit_position], ?_, ?_, ?_, ?_, ?_⟩ <;>
    by_cases h1 : (cp - pos.entry_price) / pos.entry_price ≤ -cfg.stop_loss_pct <;>
    by_cases h2 : (cp - pos.entry_price) / pos.entry_price ≥ cfg.take_profit_pct <;>
    by_cases h3 : now - pos.entry_time > 20 * 60 <;>
    by_cases h4 : now - pos.entry_time > 14 * 60 + 30 <;>
    simp [should_exit_position, hcp, h1, h2, h3, h4]

/-- Witness for `exit_evaluator_decision_table` at the long position `posX`,
current price 1/2 and `now = 870`. -/
theorem exit_evaluator_decision_table_witness :
    should_exit_position {} posX none 870 = none ∧
    should_exit_position {} posX (some 0) 870 = none ∧
    (should_exit_position {} posX (some (1 / 2)) 870 =
        some (1 / 2, ExitReason.stop_loss) ↔
      (1 / 2 - posX.entry_price) / posX.entry_price ≤ -({} : ExitConfig).stop_loss_pct) ∧
    (should_exit_position {} posX (some (1 / 2)) 870 =
        some (1 / 2, ExitReason.take_profit) ↔
      ¬((1 / 2 - posX.entry_price) / posX.entry_price ≤ -({} : ExitConfig).stop_loss_pct) ∧
      (1 / 2 - posX.entry_price) / posX.entry_price ≥ ({} : ExitConfig).take_profit_pct) ∧
    (should_exit_position {} posX (some (1 / 2)) 870 =
        some (1 / 2, ExitReason.market_expired) ↔
      ¬((1 / 2 - posX.entry_price) / posX.entry_price ≤ -({} : ExitConfig).stop_loss_pct) ∧
      ¬((1 / 2 - posX.entry_price) / posX.entry_price ≥ ({} : ExitConfig).take_profit_pct) ∧
      870 - posX.entry_time > 20 * 60) ∧
    (should_exit_position {} posX (some (1 / 2)) 870 =
        some (1 / 2, ExitReason.approaching_expiration) ↔
      ¬((1 / 2 - posX.entry_price) / posX.entry_price ≤ -({} : ExitConfig).stop_loss_pct) ∧
      ¬((1 / 2 - posX.entry_price) / posX.entry_price ≥ ({} : ExitConfig).take_profit_pct) ∧
      ¬(870 - posX.entry_time > 20 * 60) ∧
      870 - posX.entry_time > 14 * 60 + 30) ∧
    (should_exit_position {} posX (some (1 / 2)) 870 = none ↔
      ¬((1 / 2 - posX.entry_price) / posX.entry_price ≤ -({} : ExitConfig).stop_loss_pct) ∧
      ¬((1 / 2 - posX.entry_price) / posX.entry_price ≥ ({} : ExitConfig).take_profit_pct) ∧
      ¬(870 - posX.entry_time > 20 * 60) ∧
      ¬(870 - posX.entry_time > 14 * 60 + 30)) :=
  exit_evaluator_decision_table {} posX (1 / 2) 870 (by norm_num)

/-! ## Spike Detector (src/arbitrage_detector.py) -/

/-- The `PriceSnapshot` dataclass. -/
structure Snapshot where
  timestamp : ℚ
  price : ℚ
deriving DecidableEq, Repr

/-- Detector parameters of `ArbitrageDetector.__init__`
(`spike_threshold = 0.015`, `min_profit_threshold = 0.02`,
`price_history_seconds = 30`). -/
structure DetectorConfig where
  spike_threshold : ℚ := 3 / 200
  min_profit_threshold : ℚ := 1 / 50
  price_history_seconds : ℚ := 30
deriving DecidableEq, Repr

/-- Constant `self.opportunity_cooldown = timedelta(seconds=60)`. -/
def opportunity_cooldown : ℚ := 60

/-- Spike / opportunity direction, `'up'` / `'down'` strings in the source. -/
inductive SpikeDirection where
  | up
  | down
deriving DecidableEq, Repr

/-- The dictionary returned by `detect_spike`. -/
structure SpikeInfo where
  symbol : String
  direction : SpikeDirection
  price_change_pct : ℚ
  baseline_price : ℚ
  current_price : ℚ
  timestamp : ℚ
deriving DecidableEq, Repr

/-- The `ArbitrageOpportunity` dataclass. -/
structure ArbitrageOpportunity where
  symbol : String
  exchange : String
  exchange_price : ℚ
  polymarket_market_id : String
  polymarket_odds : ℚ
  divergence : ℚ
  direction : SpikeDirection
  confidence : ℚ
  timestamp : ℚ
  expected_profit : ℚ
deriving DecidableEq, Repr

/-- Mutable state of an `ArbitrageDetector`: per-symbol price history and the
recent-opportunity de-duplication list. -/
structure DetectorState where
  price_history : List (String × List Snapshot) := []
  recent_opportunities : List ArbitrageOpportunity := []
deriving DecidableEq, Repr

/-- Dict lookup on the per-symbol price-history deques. -/
def lookupHist (l : List (String × List Snapshot)) (k : String) :
    Option (List Snapshot) :=
  (l.find? (fun p => p.1 = k)).map (fun p => p.2)

/-- The symbol's history, the empty deque when the symbol is absent. -/
def histOf (st : DetectorState) (symbol : String) : List Snapshot :=
  (lookupHist st.price_history symbol).getD []

/-- Store a symbol's history back into the dict (insert or update). -/
def updateHist (l : List (String × List Snapshot)) (k : String)
    (v : List Snapshot) : List (String × List Snapshot) :=
  if (l.find? (fun p => p.1 = k)).isSome then
    l.map (fun p => if p.1 = k then (k, v) else p)
  else l ++ [(k, v)]

/-- Python `deque(maxlen=100).append`: evict from the left when full. -/
def dequeAppend (h : List Snapshot) (s : Snapshot) : List Snapshot :=
  let h1 := h ++ [s]
  if h1.length > 100 then h1.drop (h1.length - 100) else h1

/-- Method `ArbitrageDetector._cleanup_old_prices`: pop stale snapshots from the
left while older than the cutoff. -/
def cleanup_old_prices (h : List Snapshot) (cutoff : ℚ) : List Snapshot :=
  h.dropWhile (fun s => decide (s.timestamp < cutoff))

/-- Method `ArbitrageDetector.update_price`. -/
def update_price (cfg : DetectorConfig) (st : DetectorState) (symbol : String)
    (price : ℚ) (now : ℚ) : DetectorState :=
  let h := dequeAppend (histOf st symbol) { timestamp := now, price := price }
  let h2 := cleanup_old_prices h (now - cfg.price_history_seconds)
  { st with price_history := updateHist st.price_history symbol h2 }

/-- Method `ArbitrageDetector.detect_spike` (arbitrage_detector.py lines 105-158):
the baseline is the first retained snapshot within the window (the oldest,
since history is chronological); absent symbols have an empty history. -/
def detect_spike (cfg : DetectorConfig) (st : DetectorState) (symbol : String)
    (current_price now window_seconds : ℚ) : Option SpikeInfo :=
  let history := histOf st symbol
  if history.length < 2 then none
  else
    match history.find? (fun s => decide (s.timestamp ≥ now - window_seconds)) with
    | none => none
    | some snap =>
      if snap.price = 0 then none
      else
        let price_change := (current_price - snap.price) / snap.price
        if |price_change| ≥ cfg.spike_threshold then
          some { symbol := symbol
                 direction := if price_change > 0 then SpikeDirection.up
                   else SpikeDirection.down
                 price_change_pct := price_change
                 baseline_price := snap.price
                 current_price := current_price
                 timestamp := now }
        else none

theorem find?_min_of_sorted (l : List Snapshot) (cutoff : ℚ) :
    List.Pairwise (fun a b => a.timestamp ≤ b.timestamp) l →
    ∀ snap, l.find? (fun s => decide (s.timestamp ≥ cutoff)) = some snap →
    ∀ s ∈ l, s.timestamp ≥ cutoff → snap.timestamp ≤ s.timestamp := by
  induction l with
  | nil => intro _ snap hfind; simp at hfind
  | cons x t ih =>
    intro hsort snap hfind s hs hcs
    rcases List.pairwise_cons.mp hsort with ⟨hx, ht⟩
    by_cases hpx : x.timestamp ≥ cutoff
    · rw [List.find?_cons_of_pos _ (by simpa using hpx)] at hfind
      simp only [Option.some.injEq] at hfind
      rcases List.mem_cons.mp hs with rfl | hs
      · rw [← hfind]
      · rw [← hfind]
        exact hx s hs
    · rw [List.find?_cons_of_neg _ (by simpa using hpx)] at hfind
      rcases List.mem_cons.mp hs with rfl | hs
      · exact absurd hcs hpx
      · exact ih ht snap hfind s hs hcs

/-- C6 — Spike detection threshold: with at least 2 snapshots and a nonzero
baseline (the first — hence, for chronological history, oldest — snapshot in
the window), `detect_spike` fires iff `|change| >= spike_threshold`, with
direction `up` exactly when the change is positive; with fewer than 2
snapshots, no in-window snapshot, or a zero baseline it returns nothing, so
it never divides by zero. -/
theorem detect_spike_threshold (cfg : DetectorConfig) (st : DetectorState)
    (symbol : String) (current_price now window_seconds : ℚ) :
    ((histOf st symbol).length < 2 →
      detect_spike cfg st symbol current_price now window_seconds = none) ∧
    (2 ≤ (histOf st symbol).length →
      (histOf st symbol).find?
          (fun s => decide (s.timestamp ≥ now - window_seconds)) = none →
      detect_spike cfg st symbol current_price now window_seconds = none) ∧
    (∀ snap, 2 ≤ (histOf st symbol).length →
      (histOf st symbol).find?
          (fun s => decide (s.timestamp ≥ now - window_seconds)) = some snap →
      snap.price = 0 →
      detect_spike cfg st symbol current_price now window_seconds = none) ∧
    (∀ snap, 2 ≤ (histOf st symbol).length →
      (histOf st symbol).find?
          (fun s => decide (s.timestamp ≥ now - window_seconds)) = some snap →
      snap.price ≠ 0 →
      ((∃ info, detect_spike cfg st symbol current_price now window_seconds =
          some info) ↔
        cfg.spike_threshold ≤ |(current_price - snap.price) / snap.price|) ∧
      (∀ info, detect_spike cfg st symbol current_price now window_seconds =
          some info →
        info.baseline_price = snap.price ∧
        info.price_change_pct = (current_price - snap.price) / snap.price ∧
        info.current_price = current_price ∧
        (info.direction = SpikeDirection.up ↔
          0 < (current_price - snap.price) / snap.price))) ∧
    (∀ snap, List.Pairwise (fun a b => a.timestamp ≤ b.timestamp) (histOf st symbol) →
      (histOf st symbol).find?
          (fun s => decide (s.timestamp ≥ now - window_seconds)) = some snap →
      ∀ s ∈ histOf st symbol, s.timestamp ≥ now - window_seconds →
        snap.timestamp ≤ s.timestamp) := by
  have hbase : ∀ snap, 2 ≤ (histOf st symbol).length →
      (histOf st symbol).find?
          (fun s => decide (s.timestamp ≥ now - window_seconds)) = some snap →
      snap.price ≠ 0 →
      detect_spike cfg st symbol current_price now window_seconds =
        (if |(current_price - snap.price) / snap.price| ≥ cfg.spike_threshold then
          some { symbol := symbol
                 direction := if (current_price - snap.price) / snap.price > 0 then
                     SpikeDirection.up
                   else SpikeDirection.down
                 price_change_pct := (current_price - snap.price) / snap.price
                 baseline_price := snap.price
                 current_price := current_price
                 timestamp := now }
        else none) := by
    intro snap hlen hfind hnz
    simp only [detect_spike]
    rw [if_neg (not_lt.mpr hlen), hfind]
    show (if snap.price = 0 then none else _) = _
    rw [if_neg hnz]
  refine ⟨?_, ?_, ?_, ?_, ?_⟩
  · intro hlen
    simp [detect_spike, hlen]
  · intro hlen hfind
    simp only [detect_spike]
    rw [if_neg (not_lt.mpr hlen), hfind]
  · intro snap hlen hfind hzero
    simp only [detect_spike]
    rw [if_neg (not_lt.mpr hlen), hfind]
    simp [hzero]
  · intro snap hlen hfind hnz
    constructor
    · constructor
      · rintro ⟨info, hinfo⟩
        rw [hbase snap hlen hfind hnz] at hinfo
        by_contra hth
        rw [if_neg hth] at hinfo
        exact Option.noConfusion hinfo
      · intro hth
        rw [hbase snap hlen hfind hnz, if_pos hth]
        exact ⟨_, rfl⟩
    · intro info hinfo
      rw [hbase snap hlen hfind hnz] at hinfo
      by_cases hth : cfg.spike_threshold ≤ |(current_price - snap.price) / snap.price|
      · rw [if_pos hth] at hinfo
        simp only [Option.some.injEq] at hinfo
        rw [← hinfo]
        refine ⟨rfl, rfl, rfl, ?_⟩
        by_cases hpos : 0 < (current_price - snap.price) / snap.price
        · simp [hpos]
        · simp [hpos]
      · rw [if_neg hth] at hinfo
        exact Option.noConfusion hinfo
  · intro snap hsort hfind
    intro s hs hcs
    exact find?_min_of_sorted (histOf st symbol) (now - window_seconds) hsort snap
      hfind s hs hcs

/-- Method `ArbitrageDetector._calculate_spike_divergence`. -/
def calculate_spike_divergence (spike_pct polymarket_odds : ℚ)
    (direction : SpikeDirection) : ℚ :=
  if direction = SpikeDirection.up then |spike_pct| * (1 - polymarket_odds)
  else |spike_pct| * polymarket_odds

/-- Method `ArbitrageDetector._estimate_profit` with the declared 2% fee. -/
def estimate_profit (divergence odds : ℚ) : ℚ :=
  max 0 (|divergence| * (1 - odds) - 1 / 50)

/-- Method `ArbitrageDetector._calculate_confidence`. -/
def calculate_confidence (divergence odds : ℚ) : ℚ :=
  min (|divergence| / (1 / 5)) 1 * (7 / 10) + |odds - 1 / 2| * 2 * (3 / 10)

/-- Method `ArbitrageDetector._is_duplicate_opportunity`: same market id, same
direction, within the cooldown of `now`. -/
def is_duplicate_opportunity (recent : List ArbitrageOpportunity)
    (opp : ArbitrageOpportunity) (now : ℚ) : Bool :=
  recent.any (fun r =>
    r.polymarket_market_id = opp.polymarket_market_id &&
    r.direction = opp.direction &&
    decide (now - r.timestamp < opportunity_cooldown))

/-- Method `ArbitrageDetector._cleanup_old_opportunities`: keep entries strictly
newer than `now - 2 * cooldown`. -/
def cleanup_old_opportunities (recent : List ArbitrageOpportunity) (now : ℚ) :
    List ArbitrageOpportunity :=
  recent.filter (fun o => decide (o.timestamp > now - opportunity_cooldown * 2))

/-- Method `ArbitrageDetector.detect_opportunity` (arbitrage_detector.py lines
160-242), returning the accepted opportunity (if any) and the updated
detector state. -/
def detect_opportunity (cfg : DetectorConfig) (st : DetectorState)
    (symbol exchange : String) (exchange_price : ℚ) (polymarket_market_id : String)
    (polymarket_odds : ℚ) (direction : SpikeDirection) (now : ℚ) :
    Option ArbitrageOpportunity × DetectorState :=
  let st1 := update_price cfg st symbol exchange_price now
  match detect_spike cfg st1 symbol exchange_price now 10 with
  | none => (none, st1)
  | some spike =>
    if spike.direction ≠ direction then (none, st1)
    else
      let divergence :=
        calculate_spike_divergence spike.price_change_pct polymarket_odds direction
      if |divergence| < cfg.spike_threshold * (1 / 2) then (none, st1)
      else
        let expected_profit := estimate_profit divergence polymarket_odds
        if expected_profit < cfg.min_profit_threshold then (none, st1)
        else
          let opportunity : ArbitrageOpportunity :=
            { symbol := symbol
              exchange := exchange
              exchange_price := exchange_price
              polymarket_market_id := polymarket_market_id
              polymarket_odds := polymarket_odds
              divergence := divergence
              direction := direction
              confidence := calculate_confidence divergence polymarket_odds
              timestamp := now
              expected_profit := expected_profit }
          if is_duplicate_opportunity st1.recent_opportunities opportunity now then
            (none, st1)
          else
            (some opportunity,
              { st1 with
                recent_opportunities :=
                  cleanup_old_opportunities (st1.recent_opportunities ++ [opportunity]) now })

theorem update_price_recent (cfg : DetectorConfig) (st : DetectorState)
    (symbol : String) (price now : ℚ) :
    (update_price cfg st symbol price now).recent_opportunities =
      st.recent_opportunities := rfl

theorem is_duplicate_of_mem (recent : List ArbitrageOpportunity)
    (o r : ArbitrageOpportunity) (now : ℚ) (hmem : r ∈ recent)
    (hm : r.polymarket_market_id = o.polymarket_market_id)
    (hd : r.direction = o.direction)
    (ht : now - r.timestamp < opportunity_cooldown) :
    is_duplicate_opportunity recent o now = true := by
  simp only [is_duplicate_opportunity, List.any_eq_true]
  exact ⟨r, hmem, by simp [hm, hd, ht]⟩

/-- C7 — Opportunity de-duplication: if a `detect_opportunity` call at time
`now1` accepts an opportunity for market `mkt` and direction `dir`, then the
accepted entry is stored (timestamped `now1`), every stored entry is newer
than twice the cooldown (older ones were age-evicted), and any second call
for the same market and direction within the 60-second cooldown returns
nothing — exactly one of the two calls is accepted. -/
theorem opportunity_dedup (cfg : DetectorConfig) (st st' : DetectorState)
    (sym1 exch1 : String) (p1 : ℚ) (mkt : String) (odds1 : ℚ)
    (dir : SpikeDirection) (now1 : ℚ) (opp : ArbitrageOpportunity)
    (sym2 exch2 : String) (p2 odds2 now2 : ℚ)
    (hacc : detect_opportunity cfg st sym1 exch1 p1 mkt odds1 dir now1 =
      (some opp, st'))
    (h12 : now1 ≤ now2) (hcd : now2 - now1 < opportunity_cooldown) :
    opp.timestamp = now1 ∧ opp.polymarket_market_id = mkt ∧ opp.direction = dir ∧
    opp ∈ st'.recent_opportunities ∧
    (∀ o ∈ st'.recent_opportunities,
      now1 - opportunity_cooldown * 2 < o.timestamp) ∧
    (detect_opportunity cfg st' sym2 exch2 p2 mkt odds2 dir now2).1 = none := by
  simp only [detect_opportunity] at hacc
  split at hacc
  · exact absurd hacc (by simp)
  · split at hacc
    · exact absurd hacc (by simp)
    · split at hacc
      · exact absurd hacc (by simp)
      · split at hacc
        · exact absurd hacc (by simp)
        · split at hacc
          · exact absurd hacc (by simp)
          · rw [Prod.mk.injEq, Option.some.injEq] at hacc
            obtain ⟨hopp, hst⟩ := hacc
            subst hst
            have hts : opp.timestamp = now1 := by rw [← hopp]
            have hmk : opp.polymarket_market_id = mkt := by rw [← hopp]
            have hdir : opp.direction = dir := by rw [← hopp]
            rw [hopp]
            have hc60 : opportunity_cooldown = 60 := rfl
            have hmem : opp ∈ cleanup_old_opportunities
                ((update_price cfg st sym1 p1 now1).recent_opportunities ++ [opp])
                now1 := by
              apply List.mem_filter.mpr
              refine ⟨List.mem_append_right _ (List.mem_singleton_self _), ?_⟩
              apply decide_eq_true
              show opp.timestamp > now1 - opportunity_cooldown * 2
              rw [hts, hc60]
              linarith
            refine ⟨hts, hmk, hdir, hmem, ?_, ?_⟩
            · intro o ho
              exact of_decide_eq_true (List.mem_filter.mp ho).2
            · simp only [detect_opportunity]
              split
              · rfl
              · split
                · rfl
                · split
                  · rfl
                  · split
                    · rfl
                    · split
                      · rfl
                      · next h =>
                        refine absurd
                          (is_duplicate_of_mem _ _ opp now2 hmem hmk hdir ?_) h
                        rw [hts]
                        exact hcd

def stD2 : DetectorState :=
  { price_history := [("BTC", [{ timestamp := 0, price := 100 }])] }

/-- The opportunity accepted at `now = 5` for a 100 → 120 spike against
odds 0.3: divergence `0.2 * 0.7`, expected profit `0.098 - 0.02`. -/
def oppE : ArbitrageOpportunity :=
  { symbol := "BTC", exchange := "binance", exchange_price := 120
    polymarket_market_id := "mkt", polymarket_odds := 3 / 10
    divergence := 7 / 50, direction := SpikeDirection.up
    confidence := 61 / 100, timestamp := 5, expected_profit := 39 / 500 }

/-- Witness for `opportunity_dedup`: the first call at `now = 5` accepts
`oppE`; a second call for the same market and direction at `now = 6` is
suppressed. -/
theorem opportunity_dedup_witness :
    oppE.timestamp = 5 ∧ oppE.polymarket_market_id = "mkt" ∧
    oppE.direction = SpikeDirection.up ∧
    oppE ∈ (detect_opportunity {} stD2 "BTC" "binance" 120 "mkt" (3 / 10)
      SpikeDirection.up 5).2.recent_opportunities ∧
    (∀ o ∈ (detect_opportunity {} stD2 "BTC" "binance" 120 "mkt" (3 / 10)
        SpikeDirection.up 5).2.recent_opportunities,
      (5 : ℚ) - opportunity_cooldown * 2 < o.timestamp) ∧
    (detect_opportunity {}
      (detect_opportunity {} stD2 "BTC" "binance" 120 "mkt" (3 / 10)
        SpikeDirection.up 5).2
      "BTC" "binance" 121 "mkt" (3 / 10) SpikeDirection.up 6).1 = none := by
  have hspike : detect_spike {} (update_price {} stD2 "BTC" 120 5) "BTC" 120 5 10 =
      some { symbol := "BTC", direction := SpikeDirection.up, price_change_pct := 1 / 5
             baseline_price := 100, current_price := 120, timestamp := 5 } := by
    simp [detect_spike, update_price, histOf, lookupHist, updateHist, dequeAppend,
      cleanup_old_prices, stD2]
    norm_num
    intro h
    norm_num [abs_of_pos] at h
  have hdiv : calculate_spike_divergence (1 / 5) (3 / 10) SpikeDirection.up =
      7 / 50 := by
    norm_num [calculate_spike_divergence, abs_of_pos]
  have hprof : estimate_profit (7 / 50) (3 / 10) = 39 / 500 := by
    norm_num [estimate_profit, abs_of_pos]
  have hconf : calculate_confidence (7 / 50) (3 / 10) = 61 / 100 := by
    norm_num [calculate_confidence, abs_of_pos]
  have h1 : (detect_opportunity {} stD2 "BTC" "binance" 120 "mkt" (3 / 10)
      SpikeDirection.up 5).1 = some oppE := by
    simp only [detect_opportunity, hspike]
    rw [hdiv]
    norm_num [update_price, histOf, lookupHist, updateHist, dequeAppend,
      cleanup_old_prices, stD2, hprof, hconf, is_duplicate_opportunity,
      cleanup_old_opportunities, opportunity_cooldown, oppE, abs_of_pos]
  exact opportunity_dedup {} stD2 _ "BTC" "binance" 120 "mkt" (3 / 10)
    SpikeDirection.up 5 oppE "BTC" "binance" 121 (3 / 10) 6
    (Prod.ext h1 rfl) (by norm_num) (by norm_num [opportunity_cooldown])
